import Mathlib

/-
Verification of the live-audio streaming components of GEN-AETHE-VIVENS-AI.

The development shallowly embeds the audio codec, the playback scheduler
(`onmessage` in LiveInterface), the capture handlers (`onaudioprocess` in
LiveInterface and Transcriber), the connect/disconnect session operations,
and the framing-error path, and proves or refutes the specification's
claims about them.

Numeric conventions: JavaScript numbers are modelled as exact rationals
(ℚ); `Math.sqrt` is modelled as `Real.sqrt` on the rational cast;
`Math.round` as `fun x => ⌊x + 1/2⌋` (round half toward +∞).
-/

namespace LiveAudio

/-- Clamp a sample to [-1, 1].  Part of the encoder. -/
def clamp (x : ℚ) : ℚ := max (-1) (min 1 x)

/-- JavaScript `Math.round`: round to nearest, half toward +∞. -/
def jsRound (x : ℚ) : ℤ := ⌊x + 1/2⌋

/-- Modelled from the spec: the repository imports `float32ToInt16` from
`services/audio` (a module whose source is not in `src/`).  Per the spec
(§Codec): each sample is clamped to [-1,1], multiplied by 32767, and
rounded to nearest integer. -/
def float32ToInt16Sample (s : ℚ) : ℤ := jsRound (clamp s * 32767)

/-- Little-endian byte serialization of a signed 16-bit value, i.e. the
byte view of one `Int16Array` element (two's complement, low byte first). -/
def int16ToLEBytes (v : ℤ) : List ℕ :=
  [(v % 65536).toNat % 256, (v % 65536).toNat / 256]

/-- Modelled from the spec: the encoder `encode(samples) -> byte payload`
(realized by `float32ToInt16` in the missing `services/audio` module):
samplewise clamp, scale by 32767, round, and write little-endian
signed 16-bit. -/
def encodeFrame (samples : List ℚ) : List ℕ :=
  samples.flatMap fun s => int16ToLEBytes (float32ToInt16Sample s)

/-- The signed 16-bit value seen by an `Int16Array` view of two
little-endian bytes. -/
def toInt16 (lo hi : ℕ) : ℤ :=
  if lo + 256 * hi < 32768 then (lo + 256 * hi : ℤ)
  else (lo + 256 * hi : ℤ) - 65536

/-- Decoder, from LiveInterface.tsx `onmessage` (lines 133-137):
`new Int16Array(buffer)` followed by elementwise division by 32768.0.
An odd-length buffer makes the `Int16Array` constructor throw a
`RangeError`, modelled by `none`. -/
def decodeFrame : List ℕ → Option (List ℚ)
  | [] => some []
  | [_] => none
  | lo :: hi :: rest =>
      (decodeFrame rest).map fun r => ((toInt16 lo hi : ℚ) / 32768) :: r

/-- The signed 16-bit values carried by a byte payload, in order (the
`Int16Array` view used to state range hypotheses about a buffer). -/
def rawValues : List ℕ → List ℤ
  | lo :: hi :: rest => toInt16 lo hi :: rawValues rest
  | _ => []

/-- Duration of a frame of `n` samples at the 24 kHz output rate:
`audioBuffer.duration = n / 24000`. -/
def frameDuration (n : ℕ) : ℚ := (n : ℚ) / 24000

/-- Cursor advance on frame receipt, from LiveInterface.tsx lines 152-155:
`if (nextStartTimeRef.current < currentTime) nextStartTimeRef.current =
currentTime` — the scheduled start of the incoming frame. -/
def nextCursorStart (cursor t : ℚ) : ℚ := if cursor < t then t else cursor

/-- One scheduling event, from LiveInterface.tsx lines 152-157: the frame
is started at the (possibly advanced) cursor, and the cursor then moves
forward by the frame's duration.  Returns (start time, new cursor). -/
def scheduleStep (cursor t : ℚ) (n : ℕ) : ℚ × ℚ :=
  (nextCursorStart cursor t, nextCursorStart cursor t + frameDuration n)

/-- The list of start times produced by processing a sequence of frames;
each event is (device current time at arrival, sample count). -/
def scheduleRun : ℚ → List (ℚ × ℕ) → List ℚ
  | _, [] => []
  | c, e :: rest =>
      (scheduleStep c e.1 e.2).1 :: scheduleRun (scheduleStep c e.1 e.2).2 rest

/-- The trace of cursor values: initial cursor, then the cursor after each
scheduling event. -/
def cursorTrace : ℚ → List (ℚ × ℕ) → List ℚ
  | c, [] => [c]
  | c, e :: rest => c :: cursorTrace (scheduleStep c e.1 e.2).2 rest

/-- One inbound-frame `onmessage` event (LiveInterface.tsx lines 126-158):
decode the payload, then schedule it.  The `Int16Array` constructor's
`RangeError` on an odd-length buffer is the `Except.error` branch; the
handler contains no try/catch, and `disconnect` is invoked only from the
`onclose`/`onerror` callbacks, never from `onmessage`, so no branch of
this step performs a session teardown. -/
def onMessageStep (cursor t : ℚ) (bytes : List ℕ) : Except String (ℚ × ℚ) :=
  match decodeFrame bytes with
  | none => Except.error "RangeError"
  | some samples => Except.ok (scheduleStep cursor t samples.length)

/-- The cursor after an `onmessage` event: the throw happens at the
`Int16Array` construction, before any assignment to `nextStartTimeRef`,
so on the error branch the cursor is untouched. -/
def onMessageCursor (cursor t : ℚ) (bytes : List ℕ) : ℚ :=
  match onMessageStep cursor t bytes with
  | Except.error _ => cursor
  | Except.ok p => p.2

/-- Mean of the squared samples of a block, as computed by the capture
handlers: `sum += x*x` over the block, then divided by the block length. -/
def meanSquare (b : List ℚ) : ℚ := (b.map fun x => x * x).sum / (b.length : ℚ)

/-- Result of one capture `onaudioprocess` callback: the loudness value
handed to the volume setter, and the encoded frame handed to the outbound
send path (`none` when nothing is sent). -/
structure CaptureOut where
  volume : ℝ
  sent : Option (List ℕ)

/-- LiveInterface.tsx `onaudioprocess` (lines 97-120): `if (isMuted)
return;` — a muted block leaves the reported volume at its previous value
and sends nothing; otherwise the volume becomes
`Math.min(rms * 5, 1)` and the encoded block is sent. -/
noncomputable def liveOnAudioProcess (isMuted : Bool) (prevVolume : ℝ)
    (block : List ℚ) : CaptureOut :=
  if isMuted then ⟨prevVolume, none⟩
  else ⟨min (Real.sqrt ((meanSquare block : ℚ) : ℝ) * 5) 1,
        some (encodeFrame block)⟩

/-- Transcriber.tsx streaming `onaudioprocess` (lines 109-129): the raw
root-mean-square is reported (no scaling, no clamp) and the encoded block
is always sent; the handler consults no mute flag. -/
noncomputable def transcriberOnAudioProcess (block : List ℚ) : CaptureOut :=
  ⟨Real.sqrt ((meanSquare block : ℚ) : ℝ), some (encodeFrame block)⟩

/-- Observable session-level effects of `connectToLive`
(LiveInterface.tsx lines 68-196): `isConnected` (set only by the
`onopen`/`disconnect` callbacks, not by `connectToLive` itself), the
number of connection attempts started (`ai.live.connect` calls), and the
number of device acquisitions started (`initializeAudio` /
`getUserMedia` calls). -/
structure SessionModel where
  isConnected : Bool
  attemptsInFlight : ℕ
  acquisitions : ℕ
  deriving DecidableEq

/-- `connectToLive` runs unconditionally: it performs no check of the
session state before calling `initializeAudio` (device acquisition) and
`ai.live.connect` (remote connection attempt). -/
def connectToLiveStep (s : SessionModel) : SessionModel :=
  ⟨s.isConnected, s.attemptsInFlight + 1, s.acquisitions + 1⟩

/-- The `Idle` phase of the spec FSM: not connected and no attempt in
flight. -/
def isIdleState (s : SessionModel) : Bool :=
  !s.isConnected && s.attemptsInFlight == 0

/-- LiveInterface.tsx line 361: the connect control is rendered exactly
when `isConnected` is false (so it is still rendered while a connect
attempt is in flight). -/
def connectButtonRendered (isConnected : Bool) : Bool := !isConnected

/-- The mutable fields of LiveInterface touched by `disconnect`
(lines 198-235): the audio node/context/stream/session refs (`none`
models null), the animation-frame handle (cancelled but never nulled),
`isConnected`, both volume readouts, and the playback cursor (which
`disconnect` does not reset). -/
structure LiveRefsState where
  processor : Option ℕ
  inputSource : Option ℕ
  stream : Option ℕ
  inputCtx : Option ℕ
  outputCtx : Option ℕ
  analyser : Option ℕ
  session : Option ℕ
  animationFrame : Option ℕ
  isConnected : Bool
  volumeLevel : ℚ
  aiVolumeLevel : ℚ
  nextStartTime : ℚ
  deriving DecidableEq

/-- LiveInterface.tsx `disconnect` (lines 198-235): every branch is
guarded by a null check, so the function is total in every state; it
clears the flags and refs, keeps `animationFrame` (only cancelled) and
`nextStartTime` (never reset). -/
def disconnect (s : LiveRefsState) : LiveRefsState :=
  ⟨none, none, none, none, none, none, none,
   s.animationFrame, false, 0, 0, s.nextStartTime⟩

/-- The mutable fields of Transcriber touched by `stopStreaming`
(lines 189-217). -/
structure TranscriberRefsState where
  processor : Option ℕ
  inputSource : Option ℕ
  stream : Option ℕ
  inputCtx : Option ℕ
  session : Option ℕ
  isStreaming : Bool
  streamVolume : ℚ
  deriving DecidableEq

/-- Transcriber.tsx `stopStreaming` (lines 189-217): null-guarded
cleanup of every ref, streaming flag and volume cleared; total in every
state. -/
def stopStreaming (_t : TranscriberRefsState) : TranscriberRefsState :=
  ⟨none, none, none, none, none, false, 0⟩

/-! ### Scheduler lemmas -/

lemma le_nextCursorStart_left (c t : ℚ) : c ≤ nextCursorStart c t := by
  rcases lt_or_le c t with h | h
  · rw [nextCursorStart, if_pos h]; exact le_of_lt h
  · rw [nextCursorStart, if_neg (not_lt.mpr h)]

lemma le_nextCursorStart_right (c t : ℚ) : t ≤ nextCursorStart c t := by
  rcases lt_or_le c t with h | h
  · rw [nextCursorStart, if_pos h]
  · rw [nextCursorStart, if_neg (not_lt.mpr h)]; exact h

lemma nextCursorStart_eq_left {c t : ℚ} (h : t ≤ c) : nextCursorStart c t = c := by
  rw [nextCursorStart, if_neg (not_lt.mpr h)]

lemma nextCursorStart_eq_right {c t : ℚ} (h : c ≤ t) : nextCursorStart c t = t := by
  rcases lt_or_eq_of_le h with h1 | h1
  · rw [nextCursorStart, if_pos h1]
  · rw [nextCursorStart, if_neg (not_lt.mpr (le_of_eq h1.symm))]; exact h1

lemma frameDuration_nonneg (n : ℕ) : 0 ≤ frameDuration n := by
  unfold frameDuration; positivity

lemma length_scheduleRun (c : ℚ) (es : List (ℚ × ℕ)) :
    (scheduleRun c es).length = es.length := by
  induction es generalizing c with
  | nil => rfl
  | cons e rest ih => simp [scheduleRun, ih]

lemma scheduleRun_consec (es : List (ℚ × ℕ)) : ∀ (c0 : ℚ) (i : ℕ),
    (∀ j, j + 1 < es.length →
      (es.getD (j+1) (0,0)).1 ≤ (es.getD j (0,0)).1
        + frameDuration (es.getD j (0,0)).2) →
    i + 1 < es.length →
    (scheduleRun c0 es).getD (i+1) 0
      = (scheduleRun c0 es).getD i 0 + frameDuration (es.getD i (0,0)).2 := by
  induction es with
  | nil => intro c0 i _ h; simp at h
  | cons e rest ih =>
    intro c0 i hgap h
    cases i with
    | zero =>
      cases rest with
      | nil => simp at h
      | cons f rr =>
        have hs0 : e.1 ≤ nextCursorStart c0 e.1 := le_nextCursorStart_right c0 e.1
        have hf : f.1 ≤ e.1 + frameDuration e.2 := by simpa using hgap 0 (by simp)
        have hkey : nextCursorStart (nextCursorStart c0 e.1 + frameDuration e.2) f.1
            = nextCursorStart c0 e.1 + frameDuration e.2 :=
          nextCursorStart_eq_left (by linarith)
        simp [scheduleRun, scheduleStep, hkey]
    | succ j =>
      have h' : j + 1 < rest.length := by simpa using h
      have hgap' : ∀ k, k + 1 < rest.length →
          (rest.getD (k+1) (0,0)).1 ≤ (rest.getD k (0,0)).1
            + frameDuration (rest.getD k (0,0)).2 := by
        intro k hk
        simpa [List.getD_cons_succ] using hgap (k+1) (by simpa using hk)
      simpa [scheduleRun, List.getD_cons_succ] using
        ih (scheduleStep c0 e.1 e.2).2 j hgap' h'

lemma scheduleRun_mono (es : List (ℚ × ℕ)) : ∀ (c0 : ℚ) (i : ℕ),
    i + 1 < es.length →
    (scheduleRun c0 es).getD i 0 ≤ (scheduleRun c0 es).getD (i+1) 0 := by
  induction es with
  | nil => intro c0 i h; simp at h
  | cons e rest ih =>
    intro c0 i h
    cases i with
    | zero =>
      cases rest with
      | nil => simp at h
      | cons f rr =>
        have h1 := le_nextCursorStart_left
          (nextCursorStart c0 e.1 + frameDuration e.2) f.1
        have h2 := frameDuration_nonneg e.2
        simp [scheduleRun, scheduleStep]
        linarith
    | succ j =>
      have h' : j + 1 < rest.length := by simpa using h
      simpa [scheduleRun, List.getD_cons_succ] using
        ih (scheduleStep c0 e.1 e.2).2 j h'

lemma scheduleRun_ge_time (es : List (ℚ × ℕ)) : ∀ (c0 : ℚ) (i : ℕ),
    i < es.length →
    (es.getD i (0,0)).1 ≤ (scheduleRun c0 es).getD i 0 := by
  induction es with
  | nil => intro _ i h; simp at h
  | cons e rest ih =>
    intro c0 i h
    cases i with
    | zero => simpa [scheduleRun, scheduleStep] using le_nextCursorStart_right c0 e.1
    | succ j =>
      have h' : j < rest.length := by simpa using h
      simpa [scheduleRun, List.getD_cons_succ] using
        ih (scheduleStep c0 e.1 e.2).2 j h'

lemma cursorTrace_head (c : ℚ) (es : List (ℚ × ℕ)) :
    (cursorTrace c es).head? = some c := by
  cases es <;> rfl

lemma cursorTrace_chain (c : ℚ) (es : List (ℚ × ℕ)) :
    List.Chain' (· ≤ ·) (cursorTrace c es) := by
  induction es generalizing c with
  | nil => simp [cursorTrace]
  | cons e rest ih =>
    have hstep : c ≤ (scheduleStep c e.1 e.2).2 := by
      have h1 := le_nextCursorStart_left c e.1
      have h2 := frameDuration_nonneg e.2
      simp [scheduleStep]
      linarith
    have : cursorTrace c (e :: rest)
        = c :: cursorTrace (scheduleStep c e.1 e.2).2 rest := rfl
    rw [this]
    refine List.Chain'.cons' (ih _) ?_
    intro y hy
    rw [cursorTrace_head] at hy
    obtain rfl : (scheduleStep c e.1 e.2).2 = y := by
      simpa using hy
    exact hstep

/-! ### C1 and C2 -/

/-- C1: gaplessness under continuous arrival.  If every frame arrives no
later than its predecessor's arrival time plus the predecessor's duration
(inter-arrival gap at most — in particular smaller than — the
predecessor's duration, so the cursor is still at or ahead of device
time), then each scheduled start equals the previous start plus the
previous frame's duration; and three 2400-sample frames arriving
back-to-back at device time t0 with no prior pending audio (cursor ≤ t0)
are scheduled at t0, t0+0.1, t0+0.2. -/
theorem playback_gapless_consecutive_starts :
    (∀ (c0 : ℚ) (es : List (ℚ × ℕ)),
      (∀ j, j + 1 < es.length →
        (es.getD (j+1) (0,0)).1 ≤ (es.getD j (0,0)).1
          + frameDuration (es.getD j (0,0)).2) →
      ∀ i, i + 1 < es.length →
        (scheduleRun c0 es).getD (i+1) 0
          = (scheduleRun c0 es).getD i 0 + frameDuration (es.getD i (0,0)).2) ∧
    (∀ (c0 t0 : ℚ), c0 ≤ t0 →
      scheduleRun c0 [(t0, 2400), (t0, 2400), (t0, 2400)]
        = [t0, t0 + 1/10, t0 + 1/5]) := by
  constructor
  · intro c0 es hgap i h
    exact scheduleRun_consec es c0 i hgap h
  · intro c0 t0 h
    have hd : frameDuration 2400 = 1/10 := by norm_num [frameDuration]
    have h1 : nextCursorStart c0 t0 = t0 := nextCursorStart_eq_right h
    have hq : (0:ℚ) < 10⁻¹ := by norm_num
    have h2 : nextCursorStart (t0 + 10⁻¹) t0 = t0 + 10⁻¹ :=
      nextCursorStart_eq_left (by linarith)
    have h3 : nextCursorStart (t0 + 10⁻¹ + 10⁻¹) t0 = t0 + 5⁻¹ := by
      rw [nextCursorStart_eq_left (by linarith)]
      norm_num
      ring
    simp [scheduleRun, scheduleStep, hd, h1, h2, h3]

/-- Witness for C1: the three-frame instance at c0 = 0, t0 = 0. -/
theorem playback_gapless_consecutive_starts_witness :
    ((0:ℚ) ≤ 0) ∧
    scheduleRun 0 [((0:ℚ), 2400), (0, 2400), (0, 2400)]
      = [0, 0 + 1/10, 0 + 1/5] :=
  ⟨le_refl 0, playback_gapless_consecutive_starts.2 0 0 (le_refl 0)⟩

/-- C2: PlaybackCursor monotonicity.  For any frame sequence with
non-decreasing device times, the scheduled start times are non-decreasing,
each start time is at least the device time observed at its scheduling
event, and the cursor trace never decreases. -/
theorem playbackCursor_monotone :
    ∀ (c0 : ℚ) (es : List (ℚ × ℕ)),
      (∀ i, i + 1 < es.length →
        (es.getD i (0,0)).1 ≤ (es.getD (i+1) (0,0)).1) →
      (∀ i, i + 1 < es.length →
        (scheduleRun c0 es).getD i 0 ≤ (scheduleRun c0 es).getD (i+1) 0) ∧
      (∀ i, i < es.length →
        (es.getD i (0,0)).1 ≤ (scheduleRun c0 es).getD i 0) ∧
      List.Chain' (· ≤ ·) (cursorTrace c0 es) := by
  intro c0 es _
  exact ⟨fun i h => scheduleRun_mono es c0 i h,
         fun i h => scheduleRun_ge_time es c0 i h,
         cursorTrace_chain c0 es⟩

/-- Witness for C2: two frames arriving at device times 0 and 1. -/
theorem playbackCursor_monotone_witness :
    (∀ i, i + 1 < ([((0:ℚ), 2400), (1, 1200)] : List (ℚ × ℕ)).length →
      (([((0:ℚ), 2400), (1, 1200)] : List (ℚ × ℕ)).getD i (0,0)).1
        ≤ (([((0:ℚ), 2400), (1, 1200)] : List (ℚ × ℕ)).getD (i+1) (0,0)).1) ∧
    ((∀ i, i + 1 < ([((0:ℚ), 2400), (1, 1200)] : List (ℚ × ℕ)).length →
      (scheduleRun 0 [((0:ℚ), 2400), (1, 1200)]).getD i 0
        ≤ (scheduleRun 0 [((0:ℚ), 2400), (1, 1200)]).getD (i+1) 0) ∧
     (∀ i, i < ([((0:ℚ), 2400), (1, 1200)] : List (ℚ × ℕ)).length →
      (([((0:ℚ), 2400), (1, 1200)] : List (ℚ × ℕ)).getD i (0,0)).1
        ≤ (scheduleRun 0 [((0:ℚ), 2400), (1, 1200)]).getD i 0) ∧
     List.Chain' (· ≤ ·) (cursorTrace 0 [((0:ℚ), 2400), (1, 1200)])) := by
  have hyp : ∀ i, i + 1 < ([((0:ℚ), 2400), (1, 1200)] : List (ℚ × ℕ)).length →
      (([((0:ℚ), 2400), (1, 1200)] : List (ℚ × ℕ)).getD i (0,0)).1
        ≤ (([((0:ℚ), 2400), (1, 1200)] : List (ℚ × ℕ)).getD (i+1) (0,0)).1 := by
    intro i hi
    have hi0 : i = 0 := by simp at hi; omega
    subst hi0
    norm_num
  exact ⟨hyp, playbackCursor_monotone 0 _ hyp⟩

/-! ### Codec lemmas -/

lemma clamp_eq {x : ℚ} (h1 : -1 ≤ x) (h2 : x ≤ 1) : clamp x = x := by
  rw [clamp, min_eq_right h2, max_eq_right h1]

lemma toInt16_int16ToLEBytes {v : ℤ} (h1 : -32768 ≤ v) (h2 : v < 32768) :
    toInt16 ((v % 65536).toNat % 256) ((v % 65536).toNat / 256) = v := by
  rw [toInt16]
  split <;> omega

lemma int16ToLEBytes_toInt16 {lo hi : ℕ} (hlo : lo < 256) (hhi : hi < 256) :
    int16ToLEBytes (toInt16 lo hi) = [lo, hi] := by
  rw [int16ToLEBytes, toInt16]
  split <;> simp only [List.cons.injEq, and_true] <;> omega

lemma float32ToInt16Sample_bounds {x : ℚ} (h1 : -1 ≤ x) (h2 : x ≤ 1) :
    -32767 ≤ float32ToInt16Sample x ∧ float32ToInt16Sample x ≤ 32767 := by
  rw [float32ToInt16Sample, clamp_eq h1 h2, jsRound]
  constructor
  · refine Int.le_floor.mpr ?_
    push_cast
    linarith
  · calc ⌊x * 32767 + 1/2⌋ ≤ ⌊(65535/2 : ℚ)⌋ :=
          Int.floor_le_floor (by linarith)
      _ = 32767 := by norm_num

lemma decode_encode_sample {x : ℚ} (h1 : -1 ≤ x) (h2 : x ≤ 1) :
    |((float32ToInt16Sample x : ℤ) : ℚ) / 32768 - x| ≤ 3/65536 := by
  rw [float32ToInt16Sample, clamp_eq h1 h2, jsRound]
  have hle : ((⌊x * 32767 + 1/2⌋ : ℤ) : ℚ) ≤ x * 32767 + 1/2 := Int.floor_le _
  have hgt : x * 32767 + 1/2 < ((⌊x * 32767 + 1/2⌋ : ℤ) : ℚ) + 1 :=
    Int.lt_floor_add_one _
  rw [abs_le]
  constructor <;> linarith

lemma float32ToInt16Sample_decoded {v : ℤ} (h1 : -16383 ≤ v) (h2 : v ≤ 16384) :
    float32ToInt16Sample ((v : ℚ) / 32768) = v := by
  have hv1 : (-16383 : ℚ) ≤ (v : ℚ) := by exact_mod_cast h1
  have hv2 : (v : ℚ) ≤ 16384 := by exact_mod_cast h2
  have hx1 : (-1 : ℚ) ≤ (v : ℚ) / 32768 := by linarith
  have hx2 : (v : ℚ) / 32768 ≤ 1 := by linarith
  rw [float32ToInt16Sample, clamp_eq hx1 hx2, jsRound]
  have key : (v : ℚ) / 32768 * 32767 + 1/2 = (v : ℚ) + (1/2 - (v : ℚ) / 32768) := by
    ring
  rw [key, Int.floor_int_add]
  have hz : ⌊(1/2 - (v : ℚ) / 32768)⌋ = 0 := by
    rw [Int.floor_eq_zero_iff]
    constructor <;> simp <;> linarith
  rw [hz, add_zero]

/-- Exact round-trip on the byte level for mid-range values. -/
lemma encode_decode_even : ∀ (b : List ℕ), (∀ x ∈ b, x < 256) →
    b.length % 2 = 0 → (∀ v ∈ rawValues b, -16383 ≤ v ∧ v ≤ 16384) →
    ∃ s, decodeFrame b = some s ∧ encodeFrame s = b
  | [], _, _, _ => ⟨[], rfl, rfl⟩
  | [_], _, h, _ => by simp at h
  | lo :: hi :: rest, h256, heven, hrange => by
    obtain ⟨s, hs, he⟩ := encode_decode_even rest
      (fun x hx => h256 x (by simp [hx]))
      (by simp only [List.length_cons] at heven; omega)
      (fun v hv => hrange v (by simp [rawValues, hv]))
    refine ⟨((toInt16 lo hi : ℤ) : ℚ) / 32768 :: s, ?_, ?_⟩
    · rw [decodeFrame, hs]
      rfl
    · have hv := hrange (toInt16 lo hi) (by simp [rawValues])
      have hval : float32ToInt16Sample (((toInt16 lo hi : ℤ) : ℚ) / 32768)
          = toInt16 lo hi := float32ToInt16Sample_decoded hv.1 hv.2
      have hbytes : int16ToLEBytes (toInt16 lo hi) = [lo, hi] :=
        int16ToLEBytes_toInt16 (h256 lo (by simp)) (h256 hi (by simp))
      rw [encodeFrame] at he ⊢
      simp only [List.flatMap_cons, hval, hbytes, he]
      rfl

/-- Approximate round-trip: each decoded sample is within 3/65536 of the
original. -/
lemma decode_encode_approx : ∀ (s : List ℚ), (∀ x ∈ s, -1 ≤ x ∧ x ≤ 1) →
    ∃ ds, decodeFrame (encodeFrame s) = some ds ∧ ds.length = s.length ∧
      ∀ i, i < s.length → |ds.getD i 0 - s.getD i 0| ≤ 3/65536
  | [], _ => ⟨[], rfl, rfl, by intro i h; simp at h⟩
  | x :: rest, hin => by
    obtain ⟨ds, hds, hlen, hbound⟩ := decode_encode_approx rest
      (fun y hy => hin y (by simp [hy]))
    have hx := hin x (by simp)
    have hrange := float32ToInt16Sample_bounds hx.1 hx.2
    have hback : toInt16 ((float32ToInt16Sample x % 65536).toNat % 256)
        ((float32ToInt16Sample x % 65536).toNat / 256) = float32ToInt16Sample x :=
      toInt16_int16ToLEBytes (by omega) (by omega)
    refine ⟨((float32ToInt16Sample x : ℤ) : ℚ) / 32768 :: ds, ?_, by simp [hlen], ?_⟩
    · rw [encodeFrame, List.flatMap_cons, int16ToLEBytes]
      rw [show encodeFrame rest
            = (rest.flatMap fun s => int16ToLEBytes (float32ToInt16Sample s))
          from rfl] at hds
      show decodeFrame (_ :: _ :: _) = _
      rw [decodeFrame]
      simp only [List.append_eq, List.nil_append, hback, hds]
      rfl
    · intro i hi
      cases i with
      | zero =>
        simpa using decode_encode_sample hx.1 hx.2
      | succ j =>
        have hj : j < rest.length := by simpa using hi
        simpa using hbound j hj

/-! ### C4 and C5 -/

/-- C4 counterexample: the exact round-trip `encode(decode(b)) == b`
fails on the even-length byte buffer [255, 127] (the 16-bit value 32767):
it decodes to 32767/32768 but re-encodes to [254, 127] (the value 32766),
because 32767·(32767/32768) rounds down to 32766. -/
theorem codec_exact_roundtrip_fails :
    decodeFrame [255, 127] = some [32767/32768] ∧
    encodeFrame [32767/32768] = [254, 127] ∧
    ([254, 127] : List ℕ) ≠ [255, 127] := by
  refine ⟨?_, ?_, by decide⟩
  · norm_num [decodeFrame, toInt16]
  · norm_num [encodeFrame, float32ToInt16Sample, jsRound, clamp, int16ToLEBytes]
    decide

/-- C4 amended: for every even-length byte buffer whose signed 16-bit
values all lie in [-16383, 16384], `encode(decode(b)) == b` exactly
(the claim's full range fails for values of magnitude above 16384, see
the counterexample). -/
theorem codec_exact_roundtrip_midrange : ∀ (b : List ℕ), (∀ x ∈ b, x < 256) →
    b.length % 2 = 0 → (∀ v ∈ rawValues b, -16383 ≤ v ∧ v ≤ 16384) →
    ∃ s, decodeFrame b = some s ∧ encodeFrame s = b :=
  encode_decode_even

/-- Witness for the amended C4: the buffer [0, 64] (the value 16384). -/
theorem codec_exact_roundtrip_midrange_witness :
    ((∀ x ∈ ([0, 64] : List ℕ), x < 256) ∧ ([0, 64] : List ℕ).length % 2 = 0 ∧
      (∀ v ∈ rawValues [0, 64], -16383 ≤ v ∧ v ≤ 16384)) ∧
    ∃ s, decodeFrame [0, 64] = some s ∧ encodeFrame s = [0, 64] := by
  have h1 : ∀ x ∈ ([0, 64] : List ℕ), x < 256 := by decide
  have h2 : ([0, 64] : List ℕ).length % 2 = 0 := by decide
  have h3 : ∀ v ∈ rawValues [0, 64], -16383 ≤ v ∧ v ≤ 16384 := by
    norm_num [rawValues, toInt16]
  exact ⟨⟨h1, h2, h3⟩, codec_exact_roundtrip_midrange [0, 64] h1 h2 h3⟩

/-- C5 counterexample: the per-element bound 1/32768 fails at the sample
-9/10: it encodes to -29490 (bytes [206, 140]) and decodes to
-14745/16384, at distance 3/81920 > 1/32768 from the original. -/
theorem codec_approx_roundtrip_bound_violated :
    ((-1 : ℚ) ≤ -9/10 ∧ (-9/10 : ℚ) ≤ 1) ∧
    decodeFrame (encodeFrame [(-9/10 : ℚ)]) = some [-14745/16384] ∧
    ¬ (|(-14745/16384 : ℚ) - (-9/10)| ≤ 1/32768) := by
  refine ⟨by norm_num, ?_, ?_⟩
  · norm_num [encodeFrame, float32ToInt16Sample, jsRound, clamp, int16ToLEBytes]
    rw [show ((36046:ℤ)).toNat = 36046 from rfl]
    norm_num [decodeFrame, toInt16]
  · rw [show (-14745/16384 - (-9/10) : ℚ) = 3/81920 by norm_num,
        abs_of_pos (by norm_num : (0:ℚ) < 3/81920)]
    norm_num

/-- C5 amended: for every sample sequence with elements in [-1, 1], each
element of `decode(encode(s))` is within 3/65536 of the original (the
claimed 1/32768 fails, see the counterexample; 3/65536 = 1.5/32768 is the
correct worst-case bound for round-to-nearest at scale 32767 and decode
scale 32768). -/
theorem codec_approx_roundtrip_within : ∀ (s : List ℚ),
    (∀ x ∈ s, -1 ≤ x ∧ x ≤ 1) →
    ∃ ds, decodeFrame (encodeFrame s) = some ds ∧ ds.length = s.length ∧
      ∀ i, i < s.length → |ds.getD i 0 - s.getD i 0| ≤ 3/65536 :=
  decode_encode_approx

/-- Witness for the amended C5 at the one-sample sequence [1/2]. -/
theorem codec_approx_roundtrip_within_witness :
    (∀ x ∈ ([(1:ℚ)/2]), -1 ≤ x ∧ x ≤ 1) ∧
    ∃ ds, decodeFrame (encodeFrame [(1:ℚ)/2]) = some ds ∧
      ds.length = ([(1:ℚ)/2]).length ∧
      ∀ i, i < ([(1:ℚ)/2]).length →
        |ds.getD i 0 - ([(1:ℚ)/2]).getD i 0| ≤ 3/65536 := by
  have h : ∀ x ∈ ([(1:ℚ)/2]), -1 ≤ x ∧ x ≤ 1 := by norm_num
  exact ⟨h, codec_approx_roundtrip_within [(1:ℚ)/2] h⟩

/-! ### C8: framing errors -/

lemma decodeFrame_odd : ∀ (b : List ℕ), b.length % 2 = 1 → decodeFrame b = none
  | [], h => by simp at h
  | [_], _ => rfl
  | _ :: _ :: rest, h => by
    rw [decodeFrame, decodeFrame_odd rest
      (by simp only [List.length_cons] at h; omega)]
    rfl

/-- C8 counterexample: an odd-length (one-byte) inbound payload is not
silently dropped — the `Int16Array` construction raises a `RangeError`
(the error branch), contradicting "dropped ... without raising". -/
theorem odd_payload_raises :
    onMessageStep 0 0 [0] = Except.error "RangeError" := rfl

/-- C8 amended: an odd-length payload makes the handler raise a
`RangeError` from the `Int16Array` constructor (there is no try/catch at
the Codec boundary), but the PlaybackCursor is unchanged (the throw
happens before any cursor assignment) and no teardown occurs
(`disconnect` is only ever invoked from `onclose`/`onerror`, never from
`onmessage`). -/
theorem odd_payload_error_cursor_unchanged :
    ∀ (c t : ℚ) (b : List ℕ), b.length % 2 = 1 →
      onMessageStep c t b = Except.error "RangeError" ∧
      onMessageCursor c t b = c := by
  intro c t b hb
  have hd : decodeFrame b = none := decodeFrame_odd b hb
  constructor
  · rw [onMessageStep, hd]
  · simp [onMessageCursor, onMessageStep, hd]

/-- Witness for the amended C8 at cursor 0, device time 0, payload [0]. -/
theorem odd_payload_error_cursor_unchanged_witness :
    (([0] : List ℕ).length % 2 = 1) ∧
    (onMessageStep 0 0 [0] = Except.error "RangeError" ∧
      onMessageCursor 0 0 [0] = 0) :=
  ⟨by decide, odd_payload_error_cursor_unchanged 0 0 [0] (by decide)⟩

/-! ### C3 and C7: capture loudness -/

lemma meanSquare_replicate (n : ℕ) (hn : n ≠ 0) (c : ℚ) :
    meanSquare (List.replicate n c) = c * c := by
  have hq : (n : ℚ) ≠ 0 := Nat.cast_ne_zero.mpr hn
  rw [meanSquare, List.map_replicate, List.sum_replicate, List.length_replicate,
      nsmul_eq_mul, mul_comm, mul_div_assoc, div_self hq, mul_one]

lemma liveVolume_replicate_3_10 :
    (liveOnAudioProcess false 0 (List.replicate 4096 (3/10))).volume = 1 := by
  have hms : ((meanSquare (List.replicate 4096 (3/10)) : ℚ) : ℝ) = (3/10) * (3/10) := by
    rw [meanSquare_replicate 4096 (by norm_num) (3/10)]
    push_cast
    norm_num
  simp only [liveOnAudioProcess, Bool.false_eq_true, if_false, hms]
  rw [Real.sqrt_mul_self (by norm_num : (0:ℝ) ≤ 3/10)]
  rw [min_eq_right (by norm_num : (1:ℝ) ≤ 3/10 * 5)]

/-- C3 counterexample: a muted block does not report loudness 0 — the
handler returns before the loudness update, so the previous value (here 1,
set by an unmuted all-ones block) persists; nothing is sent. -/
theorem mute_loudness_not_zero :
    (liveOnAudioProcess true
      ((liveOnAudioProcess false 0 [1, 1, 1, 1]).volume) [0, 0]).sent = none ∧
    (liveOnAudioProcess true
      ((liveOnAudioProcess false 0 [1, 1, 1, 1]).volume) [0, 0]).volume = 1 ∧
    (1 : ℝ) ≠ 0 := by
  refine ⟨rfl, ?_, one_ne_zero⟩
  show (liveOnAudioProcess false 0 [1, 1, 1, 1]).volume = 1
  have hms : ((meanSquare [1, 1, 1, 1] : ℚ) : ℝ) = 1 := by
    norm_num [meanSquare]
  simp only [liveOnAudioProcess, Bool.false_eq_true, if_false, hms, Real.sqrt_one]
  rw [min_eq_right (by norm_num : (1:ℝ) ≤ 1 * 5)]

/-- C3 amended: while muted, no block is encoded or handed to the
outbound send path, and the reported loudness is left unchanged at its
previous value (the handler returns before computing it) — it is not set
to 0; every unmuted block is encoded and sent. -/
theorem mute_blocks_unsent_loudness_unchanged :
    (∀ (v : ℝ) (block : List ℚ), liveOnAudioProcess true v block = ⟨v, none⟩) ∧
    (∀ (v : ℝ) (block : List ℚ),
      (liveOnAudioProcess false v block).sent = some (encodeFrame block)) :=
  ⟨fun _ _ => rfl, fun _ _ => rfl⟩

/-- C7 counterexample: the reported capture loudness is not the RMS — a
4096-sample block of constant 3/10 (RMS exactly 0.3) yields a readout of
1, because the handler reports `min(rms * 5, 1)`. -/
theorem capture_loudness_not_rms :
    (liveOnAudioProcess false 0 (List.replicate 4096 (3/10))).volume = 1 ∧
    ((1 : ℝ) ≠ 3/10) := by
  exact ⟨liveVolume_replicate_3_10, by norm_num⟩

/-- C7 amended: for every unmuted block the reported loudness is
`min(RMS · 5, 1)` (the RMS scaled by 5 and clamped at 1), and the encoded
block is sent; in particular a 4096-sample block with RMS 0.3 yields a
readout of 1, not 0.3. -/
theorem capture_loudness_scaled_clamped :
    (∀ (v : ℝ) (block : List ℚ),
      liveOnAudioProcess false v block
        = ⟨min (Real.sqrt ((meanSquare block : ℚ) : ℝ) * 5) 1,
           some (encodeFrame block)⟩) ∧
    (liveOnAudioProcess false 0 (List.replicate 4096 (3/10))).volume = 1 :=
  ⟨fun _ _ => rfl, liveVolume_replicate_3_10⟩

/-! ### C6: connect is not a no-op -/

/-- C6 counterexample: in the Connecting state (not connected, one
attempt in flight) a connect request is not a no-op: `connectToLive`
performs no state check and starts a second device acquisition and a
second connection attempt. -/
theorem connect_not_noop_while_connecting :
    isIdleState ⟨false, 1, 1⟩ = false ∧
    connectToLiveStep ⟨false, 1, 1⟩ ≠ ⟨false, 1, 1⟩ ∧
    (connectToLiveStep ⟨false, 1, 1⟩).acquisitions = 2 := by
  decide

/-- C6 amended: `connectToLive` guards on nothing: in every session state
a connect request starts a fresh device acquisition and a fresh remote
connection attempt (so a request while Connecting yields a second
overlapping attempt); the UI suppresses the connect control only while
`isConnected` is true, so the control is still rendered while Connecting. -/
theorem connect_always_starts_acquisition :
    (∀ s : SessionModel, (connectToLiveStep s).acquisitions = s.acquisitions + 1 ∧
      (connectToLiveStep s).attemptsInFlight = s.attemptsInFlight + 1 ∧
      (connectToLiveStep s).isConnected = s.isConnected) ∧
    connectButtonRendered false = true :=
  ⟨fun _ => ⟨rfl, rfl, rfl⟩, rfl⟩

/-! ### C9: disconnect / stopStreaming -/

/-- C9: `disconnect` and `stopStreaming` are total (every cleanup branch
is null-guarded, so they are defined in every state, including the fully
released one) and idempotent: a second consecutive invocation leaves
every field exactly as the first left it. -/
theorem disconnect_total_idempotent :
    (∀ s : LiveRefsState, disconnect (disconnect s) = disconnect s) ∧
    (∀ t : TranscriberRefsState, stopStreaming (stopStreaming t) = stopStreaming t) :=
  ⟨fun _ => rfl, fun _ => rfl⟩

/-! ### C10: transcriber capture path -/

/-- C10: the streaming-transcription capture handler has no mute gate —
every block is unconditionally encoded and handed to the outbound send
path — and it reports the raw root-mean-square with no scaling factor and
no clamp; it differs from the live-voice path (which reports
`min(rms · 5, 1)`), e.g. on the block [1/2]. -/
theorem transcriber_no_mute_gate_raw_rms :
    (∀ block : List ℚ,
      (transcriberOnAudioProcess block).sent = some (encodeFrame block)) ∧
    (∀ block : List ℚ,
      (transcriberOnAudioProcess block).volume
        = Real.sqrt ((meanSquare block : ℚ) : ℝ)) ∧
    (∃ block : List ℚ,
      (transcriberOnAudioProcess block).volume
        ≠ (liveOnAudioProcess false 0 block).volume) := by
  refine ⟨fun _ => rfl, fun _ => rfl, ⟨[(1:ℚ)/2], ?_⟩⟩
  have hms : ((meanSquare [(1:ℚ)/2] : ℚ) : ℝ) = (1/2) * (1/2) := by
    norm_num [meanSquare]
  show Real.sqrt ((meanSquare [(1:ℚ)/2] : ℚ) : ℝ)
      ≠ (liveOnAudioProcess false 0 [(1:ℚ)/2]).volume
  simp only [liveOnAudioProcess, Bool.false_eq_true, if_false, hms]
  rw [Real.sqrt_mul_self (by norm_num : (0:ℝ) ≤ 1/2)]
  rw [min_eq_right (by norm_num : (1:ℝ) ≤ 1/2 * 5)]
  norm_num

end LiveAudio
